import Mathlib

/-!
Verification development for the `generate_ir.py` spatial-IR generator.

Modelling conventions:
* Python floats are modelled as exact rationals (`ℚ`); `math.pi` is the
  exact rational value of the IEEE-754 double constant used by the source.
* A Python exception is modelled as `none` (inside `Option`) or as an
  explicit error constructor; writing a file is modelled by returning the
  byte stream that would be written.
* `struct.pack "<f"` (the 4-byte IEEE-754 float encoding of one sample) is
  kept abstract: the container encoder is parameterised by the sample
  encoding function `packf`.
-/

/-- `SAMPLE_RATE = 48000` from the source. -/
def SAMPLE_RATE : ℕ := 48000

/-- `IR_DURATION_MS = 80` from the source. -/
def IR_DURATION_MS : ℕ := 80

/-- `IR_SAMPLES = int(SAMPLE_RATE * IR_DURATION_MS / 1000)`; the quotient is exact. -/
def IR_SAMPLES : ℕ := SAMPLE_RATE * IR_DURATION_MS / 1000

/-- `NUM_CHANNELS = 4` from the source. -/
def NUM_CHANNELS : ℕ := 4

/-- Exact rational value of the IEEE-754 double `math.pi`
(3.141592653589793115997963…), i.e. 884279719003555 / 2^48. -/
def mathPi : ℚ := 884279719003555 / 281474976710656

/-- Python `int(q)`: truncation toward zero. -/
def truncQ (q : ℚ) : ℤ := if 0 ≤ q then ⌊q⌋ else ⌈q⌉

/-- `ms_to_samples(ms) = int(ms * SAMPLE_RATE / 1000)`. -/
def ms_to_samples (ms : ℚ) : ℤ := truncQ (ms * (SAMPLE_RATE : ℚ) / 1000)

/-- The filter coefficient computed inside `apply_lpf_to_impulse`:
`rc = 1/(2*math.pi*cutoff_hz)`, `dt = 1/sample_rate`, `alpha = dt/(rc+dt)`. -/
def lpfAlpha (cutoff_hz sample_rate : ℚ) : ℚ :=
  (1 / sample_rate) / (1 / (2 * mathPi * cutoff_hz) + 1 / sample_rate)

/-- The loop of `apply_lpf_to_impulse`: state `prev` is threaded through the
buffer in increasing index order; each sample is replaced by the new state. -/
def lpfLoop (alpha prev : ℚ) : List ℚ → List ℚ
  | [] => []
  | x :: xs =>
    (prev + alpha * (x - prev)) :: lpfLoop alpha (prev + alpha * (x - prev)) xs

/-- `apply_lpf_to_impulse(samples, cutoff_hz, sample_rate)`: single-pole IIR
low-pass applied over the whole buffer with initial state `prev = 0.0`. -/
def apply_lpf_to_impulse (samples : List ℚ) (cutoff_hz sample_rate : ℚ) : List ℚ :=
  lpfLoop (lpfAlpha cutoff_hz sample_rate) 0 samples

/-- Python list read `buf[i]` with negative indexing; `none` models `IndexError`. -/
def pyGet (buf : List ℚ) (i : ℤ) : Option ℚ :=
  if 0 ≤ i then
    if i < (buf.length : ℤ) then some (buf.getD i.toNat 0) else none
  else
    if -(buf.length : ℤ) ≤ i then some (buf.getD (buf.length + i).toNat 0) else none

/-- Python list assignment `buf[i] = v` with negative indexing;
`none` models `IndexError`. -/
def pySet (buf : List ℚ) (i : ℤ) (v : ℚ) : Option (List ℚ) :=
  if 0 ≤ i then
    if i < (buf.length : ℤ) then some (buf.set i.toNat v) else none
  else
    if -(buf.length : ℤ) ≤ i then some (buf.set (buf.length + i).toNat v) else none

/-- Python `buf[i] += v` (read then write). -/
def pyAdd (buf : List ℚ) (i : ℤ) (v : ℚ) : Option (List ℚ) :=
  match pyGet buf i with
  | none => none
  | some old => pySet buf i (old + v)

/-- The reflection loop of `generate_channel`:
`for i, (delay_ms, ref_gain) in enumerate(reflections): ...`.
`offset` is `cross_delay_ms if is_cross else 0`; `i` is the enumeration index. -/
def applyReflectionsAux (offset : ℚ) (i : ℕ) (buf : List ℚ) :
    List (ℚ × ℚ) → Option (List ℚ)
  | [] => some buf
  | (delay_ms, ref_gain) :: rest =>
    let total_delay := ms_to_samples (delay_ms + offset)
    if total_delay < (IR_SAMPLES : ℤ) then
      let polarity : ℚ := if i % 2 = 0 then 1 else -1
      match pyAdd buf total_delay (ref_gain * polarity) with
      | none => none
      | some buf2 => applyReflectionsAux offset (i + 1) buf2 rest
    else
      applyReflectionsAux offset (i + 1) buf rest

/-- Python truthiness of the `cross_lpf_freq` argument (`None`, `0` falsy). -/
def lpfTruthy : Option ℚ → Bool
  | none => false
  | some c => c ≠ 0

/-- `generate_channel(gain, reflections, is_cross, cross_delay_ms, cross_lpf_freq)`:
zero buffer of `IR_SAMPLES`, primary impulse, early reflections with
alternating polarity, then the head-shadow filter on truthy crossfeed cutoff.
`none` models an `IndexError` escaping the call. -/
def generate_channel (gain : ℚ) (reflections : List (ℚ × ℚ)) (is_cross : Bool)
    (cross_delay_ms : ℚ) (cross_lpf_freq : Option ℚ) : Option (List ℚ) :=
  let buf : List ℚ := List.replicate IR_SAMPLES 0
  let delay_samples : ℤ := if is_cross then ms_to_samples cross_delay_ms else 0
  let step1 : Option (List ℚ) :=
    if delay_samples < (IR_SAMPLES : ℤ) then pySet buf delay_samples gain else some buf
  match step1 with
  | none => none
  | some buf1 =>
    match applyReflectionsAux (if is_cross then cross_delay_ms else 0) 0 buf1 reflections with
    | none => none
    | some buf2 =>
      if is_cross ∧ lpfTruthy cross_lpf_freq then
        some (apply_lpf_to_impulse buf2 (cross_lpf_freq.getD 0) (SAMPLE_RATE : ℚ))
      else
        some buf2

/-- The placement stage of `generate_channel` (primary impulse plus the
reflection loop), before the optional head-shadow filter. -/
def placeStage (gain : ℚ) (reflections : List (ℚ × ℚ)) (is_cross : Bool)
    (cross_delay_ms : ℚ) : Option (List ℚ) :=
  let buf : List ℚ := List.replicate IR_SAMPLES 0
  let delay_samples : ℤ := if is_cross then ms_to_samples cross_delay_ms else 0
  let step1 : Option (List ℚ) :=
    if delay_samples < (IR_SAMPLES : ℤ) then pySet buf delay_samples gain else some buf
  match step1 with
  | none => none
  | some buf1 =>
    applyReflectionsAux (if is_cross then cross_delay_ms else 0) 0 buf1 reflections

/-- One intensity preset record (the six fields of the source dictionaries). -/
structure Preset where
  direct_gain : ℚ
  reflections : List (ℚ × ℚ)
  cross_gain : ℚ
  cross_delay_ms : ℚ
  cross_lpf_freq : ℚ
  cross_reflections : List (ℚ × ℚ)
deriving DecidableEq

/-- The `"light"` preset. -/
def presetLight : Preset :=
  { direct_gain := 1
    reflections := [(9/5, 2/25), (26/5, 1/20), (11, 3/100)]
    cross_gain := 3/20
    cross_delay_ms := 1/4
    cross_lpf_freq := 3000
    cross_reflections := [(7/2, 1/25), (8, 1/50)] }

/-- The `"medium"` preset. -/
def presetMedium : Preset :=
  { direct_gain := 1
    reflections := [(3/2, 3/25), (19/5, 9/100), (13/2, 3/50), (51/5, 1/25), (15, 1/40)]
    cross_gain := 1/4
    cross_delay_ms := 3/10
    cross_lpf_freq := 2500
    cross_reflections := [(14/5, 3/50), (6, 1/25), (12, 1/50)] }

/-- The `"heavy"` preset. -/
def presetHeavy : Preset :=
  { direct_gain := 1
    reflections := [(6/5, 9/50), (3, 7/50), (11/2, 1/10), (8, 7/100), (12, 1/20),
                    (18, 7/200), (25, 1/50)]
    cross_gain := 7/20
    cross_delay_ms := 7/20
    cross_lpf_freq := 2000
    cross_reflections := [(11/5, 1/10), (5, 3/50), (9, 1/25), (15, 1/50)] }

/-- `PRESETS`, as an insertion-ordered association list. -/
def PRESETS : List (String × Preset) :=
  [("light", presetLight), ("medium", presetMedium), ("heavy", presetHeavy)]

/-- Result of a Python call that may raise. -/
inductive PyResult (α : Type) where
  | ok : α → PyResult α
  | valueError : String → PyResult α
  | indexError : PyResult α
deriving DecidableEq

/-- The channel-construction part of `generate_ir(preset_name, ...)`:
validates the preset name, synthesizes the direct (LL) and cross (LR)
channels, and duplicates each (`list(ch_ll)`, `list(ch_lr)`) to obtain
RR and RL. -/
def generateIRChannels (preset_name : String) : PyResult (List (List ℚ)) :=
  match (PRESETS.filter (fun kv => kv.1 = preset_name)).head? with
  | none =>
    .valueError ("Unknown preset: " ++ preset_name ++ ". Choose from: " ++
      String.intercalate ", " (PRESETS.map Prod.fst))
  | some kv =>
    let p := kv.2
    match generate_channel p.direct_gain p.reflections false 0 none with
    | none => .indexError
    | some ch_ll =>
      match generate_channel p.cross_gain p.cross_reflections true
          p.cross_delay_ms (some p.cross_lpf_freq) with
      | none => .indexError
      | some ch_lr => .ok [ch_ll, ch_ll, ch_lr, ch_lr]

/-- Unconditional 16-bit little-endian byte encoding. -/
def u16le (v : ℕ) : List ℕ := [v % 256, v / 256 % 256]

/-- Unconditional 32-bit little-endian byte encoding. -/
def u32le (v : ℕ) : List ℕ := [v % 256, v / 256 % 256, v / 65536 % 256, v / 16777216 % 256]

/-- `struct.pack "<H"`: two little-endian bytes; `none` models `struct.error`
on an out-of-range value. -/
def packU16 (v : ℕ) : Option (List ℕ) :=
  if v < 65536 then some (u16le v) else none

/-- `struct.pack "<I"`: four little-endian bytes; `none` models `struct.error`
on an out-of-range value. -/
def packU32 (v : ℕ) : Option (List ℕ) :=
  if v < 4294967296 then some (u32le v) else none

/-- ASCII bytes of a chunk tag such as `b"RIFF"`. -/
def asciiBytes (s : String) : List ℕ := s.toList.map Char.toNat

/-- `some`-preserving map over a list (Python loop that raises on the first
failing element). -/
def optMapM (f : α → Option β) : List α → Option (List β)
  | [] => some []
  | a :: as =>
    match f a with
    | none => none
    | some b =>
      match optMapM f as with
      | none => none
      | some bs => some (b :: bs)

/-- One frame of the data payload: the sample of every channel at time `i`
(`channels[ch][i]`), each through the sample encoder. -/
def frameBytes (packf : ℚ → List ℕ) (channels : List (List ℚ)) (i : ℕ) :
    Option (List ℕ) :=
  match optMapM (fun c => c.get? i) channels with
  | none => none
  | some vs => some (vs.map packf).flatten

/-- The interleaved payload: `for i in range(num_samples): for ch in ...`. -/
def payloadBytes (packf : ℚ → List ℕ) (channels : List (List ℚ))
    (num_samples : ℕ) : Option (List ℕ) :=
  match optMapM (frameBytes packf channels) (List.range num_samples) with
  | none => none
  | some fs => some fs.flatten

/-- `write_wav(filepath, channels, sample_rate)` as the byte stream written:
RIFF header, fmt chunk (IEEE float, tag 3), data chunk with the interleaved
payload. `none` models an exception (empty channel list, or a size that does
not fit the packed field). `packf` stands for `struct.pack "<f"`. -/
def write_wav (packf : ℚ → List ℕ) (channels : List (List ℚ))
    (sample_rate : ℕ) : Option (List ℕ) :=
  match channels with
  | [] => none
  | c0 :: _ =>
    let num_channels := channels.length
    let num_samples := c0.length
    let bits_per_sample := 32
    let byte_rate := sample_rate * num_channels * (bits_per_sample / 8)
    let block_align := num_channels * (bits_per_sample / 8)
    let data_size := num_samples * block_align
    match packU32 (36 + data_size), packU32 16, packU16 3, packU16 num_channels,
        packU32 sample_rate, packU32 byte_rate, packU16 block_align,
        packU16 bits_per_sample, packU32 data_size,
        payloadBytes packf channels num_samples with
    | some riffSize, some fmtSize, some fmtTag, some nch, some sr, some br,
      some ba, some bps, some dsz, some payload =>
      some (asciiBytes "RIFF" ++ riffSize ++ asciiBytes "WAVE" ++
            asciiBytes "fmt " ++ fmtSize ++ fmtTag ++ nch ++ sr ++ br ++ ba ++ bps ++
            asciiBytes "data" ++ dsz ++ payload)
    | _, _, _, _, _, _, _, _, _, _ => none

/-- `generate_ir(preset_name, output_path)` as the byte stream written to the
output file: the four channels encoded by `write_wav` at `SAMPLE_RATE`.
An error result means nothing was written. -/
def generate_ir (packf : ℚ → List ℕ) (preset_name : String) : PyResult (List ℕ) :=
  match generateIRChannels preset_name with
  | .valueError msg => .valueError msg
  | .indexError => .indexError
  | .ok channels =>
    match write_wav packf channels SAMPLE_RATE with
    | none => .indexError
    | some bytes => .ok bytes

/-- Destination sample index of one reflection tap: `ms_to_samples(delay_ms + offset)`,
where `offset` is the crossfeed delay (0 on direct channels). -/
def tapIndex (offset : ℚ) (tap : ℚ × ℚ) : ℤ := ms_to_samples (tap.1 + offset)

/-- Alternating polarity of the tap at enumeration position `i`. -/
def tapPolarity (i : ℕ) : ℚ := if i % 2 = 0 then 1 else -1

/-- Sum of the signed contributions `ref_gain * polarity` of all taps whose
destination index equals `j`, enumerating from position `i`. -/
def tapContrib (offset : ℚ) (i : ℕ) (j : ℕ) : List (ℚ × ℚ) → ℚ
  | [] => 0
  | t :: rest =>
    (if tapIndex offset t = (j : ℤ) then t.2 * tapPolarity i else 0) +
      tapContrib offset (i + 1) j rest

/-! ## Lemmas about the low-pass filter loop -/

theorem lpfLoop_length (a p : ℚ) (xs : List ℚ) : (lpfLoop a p xs).length = xs.length := by
  induction xs generalizing p with
  | nil => rfl
  | cons x xs ih => simp [lpfLoop, ih]

theorem lpfLoop_getD_zero (a p x : ℚ) (xs : List ℚ) :
    (lpfLoop a p (x :: xs)).getD 0 0 = p + a * (x - p) := rfl

theorem lpfLoop_getD_succ (a p : ℚ) (xs : List ℚ) (n : ℕ) (h : n + 1 < xs.length) :
    (lpfLoop a p xs).getD (n + 1) 0 =
      (lpfLoop a p xs).getD n 0 +
        a * (xs.getD (n + 1) 0 - (lpfLoop a p xs).getD n 0) := by
  induction xs generalizing p n with
  | nil => simp at h
  | cons x xs ih =>
    cases n with
    | zero =>
      cases xs with
      | nil => simp at h
      | cons y ys =>
        simp [lpfLoop, List.getD_cons_succ, List.getD_cons_zero]
    | succ m =>
      have hm : m + 1 < xs.length := by
        simpa using Nat.lt_of_succ_lt_succ h
      simpa [lpfLoop, List.getD_cons_succ] using ih (p + a * (x - p)) m hm

theorem lpfLoop_replicate_zero (a p : ℚ) (m k : ℕ) (h : k < m) :
    (lpfLoop a p (List.replicate m 0)).getD k 0 = p * (1 - a) ^ (k + 1) := by
  induction m generalizing p k with
  | zero => omega
  | succ m ih =>
    rw [List.replicate_succ]
    show ((p + a * (0 - p)) :: lpfLoop a (p + a * (0 - p)) (List.replicate m 0)).getD k 0 = _
    cases k with
    | zero =>
      rw [List.getD_cons_zero]
      ring
    | succ j =>
      rw [List.getD_cons_succ, ih (p + a * (0 - p)) j (by omega)]
      ring

theorem lpfLoop_zero_fixed (a : ℚ) (m : ℕ) :
    lpfLoop a 0 (List.replicate m 0) = List.replicate m 0 := by
  induction m with
  | zero => rfl
  | succ m ih =>
    rw [List.replicate_succ]
    show (0 + a * (0 - 0)) :: lpfLoop a (0 + a * (0 - 0)) (List.replicate m 0) = _
    simp only [sub_zero, mul_zero, add_zero, zero_add, sub_self]
    rw [ih]

theorem mathPi_pos : (0 : ℚ) < mathPi := by norm_num [mathPi]

theorem lpfAlpha_mem_Ioo (c fs : ℚ) (hc : 0 < c) (hfs : 0 < fs) :
    0 < lpfAlpha c fs ∧ lpfAlpha c fs < 1 := by
  have hrc : (0 : ℚ) < 1 / (2 * mathPi * c) := by
    have h2 : (0 : ℚ) < 2 * mathPi * c := by
      have := mathPi_pos
      positivity
    positivity
  have hdt : (0 : ℚ) < 1 / fs := by positivity
  have hsum : (0 : ℚ) < 1 / (2 * mathPi * c) + 1 / fs := by linarith
  constructor
  · exact div_pos hdt hsum
  · rw [lpfAlpha, div_lt_one hsum]
    linarith

/-- Claim C6: applied with cutoff `f_c > 0` and sample rate `f_s`, the
low-pass filter runs exactly once over the full buffer in increasing index
order with internal state initialised to 0, transforming the samples by
`state := state + alpha * (x[n] - state); x[n] := state` where
`alpha = dt / (rc + dt)`, `rc = 1/(2*pi*f_c)`, `dt = 1/f_s`. -/
theorem C6_lpf_exact_recurrence (f_c f_s : ℚ) (xs : List ℚ) :
    lpfAlpha f_c f_s = (1 / f_s) / (1 / (2 * mathPi * f_c) + 1 / f_s) ∧
    (apply_lpf_to_impulse xs f_c f_s).length = xs.length ∧
    (0 < xs.length →
      (apply_lpf_to_impulse xs f_c f_s).getD 0 0 =
        0 + lpfAlpha f_c f_s * (xs.getD 0 0 - 0)) ∧
    ∀ n : ℕ, n + 1 < xs.length →
      (apply_lpf_to_impulse xs f_c f_s).getD (n + 1) 0 =
        (apply_lpf_to_impulse xs f_c f_s).getD n 0 +
          lpfAlpha f_c f_s *
            (xs.getD (n + 1) 0 - (apply_lpf_to_impulse xs f_c f_s).getD n 0) := by
  refine ⟨rfl, lpfLoop_length _ _ _, ?_, ?_⟩
  · intro h
    cases xs with
    | nil => simp at h
    | cons x xs => simpa using lpfLoop_getD_zero (lpfAlpha f_c f_s) 0 x xs
  · intro n h
    exact lpfLoop_getD_succ _ _ _ n h

/-- Witness for C6 at the two-sample buffer `[1, 2]`, cutoff 3000, rate 48000. -/
theorem C6_lpf_exact_recurrence_witness :
    (0 < ([1, 2] : List ℚ).length ∧
      (apply_lpf_to_impulse [1, 2] 3000 48000).getD 0 0 =
        0 + lpfAlpha 3000 48000 * (([1, 2] : List ℚ).getD 0 0 - 0)) ∧
    (0 + 1 < ([1, 2] : List ℚ).length ∧
      (apply_lpf_to_impulse [1, 2] 3000 48000).getD (0 + 1) 0 =
        (apply_lpf_to_impulse [1, 2] 3000 48000).getD 0 0 +
          lpfAlpha 3000 48000 *
            (([1, 2] : List ℚ).getD (0 + 1) 0 -
              (apply_lpf_to_impulse [1, 2] 3000 48000).getD 0 0)) :=
  ⟨⟨by decide, (C6_lpf_exact_recurrence 3000 48000 [1, 2]).2.2.1 (by decide)⟩,
   ⟨by decide, (C6_lpf_exact_recurrence 3000 48000 [1, 2]).2.2.2 0 (by decide)⟩⟩

/-- Claim C9: for every positive cutoff, filtering an all-zero buffer returns
an all-zero buffer (zero is a fixed point), and filtering a buffer holding a
single unit impulse at index 0 yields `alpha` at index 0 followed by the
strictly monotonically decaying sequence `alpha * (1 - alpha)^n`. -/
theorem C9_lpf_zero_fixed_and_impulse_decay (c : ℚ) (hc : 0 < c) (m : ℕ) :
    apply_lpf_to_impulse (List.replicate m 0) c 48000 = List.replicate m 0 ∧
    (∀ k : ℕ, k ≤ m →
      (apply_lpf_to_impulse (1 :: List.replicate m 0) c 48000).getD k 0 =
        lpfAlpha c 48000 * (1 - lpfAlpha c 48000) ^ k) ∧
    ∀ k : ℕ, k + 1 ≤ m →
      (apply_lpf_to_impulse (1 :: List.replicate m 0) c 48000).getD (k + 1) 0 <
        (apply_lpf_to_impulse (1 :: List.replicate m 0) c 48000).getD k 0 := by
  have ha := lpfAlpha_mem_Ioo c 48000 hc (by norm_num)
  have hval : ∀ k : ℕ, k ≤ m →
      (apply_lpf_to_impulse (1 :: List.replicate m 0) c 48000).getD k 0 =
        lpfAlpha c 48000 * (1 - lpfAlpha c 48000) ^ k := by
    intro k hk
    show ((0 + lpfAlpha c 48000 * (1 - 0)) ::
        lpfLoop (lpfAlpha c 48000) (0 + lpfAlpha c 48000 * (1 - 0))
          (List.replicate m 0)).getD k 0 = _
    cases k with
    | zero =>
      rw [List.getD_cons_zero]
      ring
    | succ j =>
      rw [List.getD_cons_succ,
        lpfLoop_replicate_zero (lpfAlpha c 48000) _ m j (by omega)]
      ring
  refine ⟨lpfLoop_zero_fixed _ m, hval, ?_⟩
  intro k hk
  rw [hval (k + 1) hk, hval k (by omega)]
  have hpow : (1 - lpfAlpha c 48000) ^ (k + 1) < (1 - lpfAlpha c 48000) ^ k :=
    pow_lt_pow_right_of_lt_one₀ (by linarith [ha.2]) (by linarith [ha.1]) (by omega)
  exact mul_lt_mul_of_pos_left hpow ha.1

/-- Witness for C9 at cutoff 3000 and buffer length 2. -/
theorem C9_lpf_zero_fixed_and_impulse_decay_witness :
    (0 : ℚ) < 3000 ∧
    apply_lpf_to_impulse (List.replicate 2 0) 3000 48000 = List.replicate 2 0 ∧
    (0 + 1 ≤ 2 ∧
      (apply_lpf_to_impulse (1 :: List.replicate 2 0) 3000 48000).getD (0 + 1) 0 <
        (apply_lpf_to_impulse (1 :: List.replicate 2 0) 3000 48000).getD 0 0) :=
  ⟨by norm_num,
   (C9_lpf_zero_fixed_and_impulse_decay 3000 (by norm_num) 2).1,
   ⟨by norm_num,
    (C9_lpf_zero_fixed_and_impulse_decay 3000 (by norm_num) 2).2.2 0 (by norm_num)⟩⟩

/-! ## Lemmas about buffer indexing and the reflection loop -/

theorem getD_set_self (l : List ℚ) (k : ℕ) (v : ℚ) (h : k < l.length) :
    (l.set k v).getD k 0 = v := by
  simp [List.getD_eq_getElem?_getD, List.getElem?_set_self, h]

theorem getD_set_ne (l : List ℚ) (k j : ℕ) (v : ℚ) (h : j ≠ k) :
    (l.set k v).getD j 0 = l.getD j 0 := by
  simp [List.getD_eq_getElem?_getD, List.getElem?_set_ne (Ne.symm h)]

theorem getD_replicate_zero (n j : ℕ) : (List.replicate n (0 : ℚ)).getD j 0 = 0 := by
  simp only [List.getD_eq_getElem?_getD, List.getElem?_replicate]
  split <;> rfl

theorem pySet_nonneg (buf : List ℚ) (i : ℤ) (v : ℚ) (h0 : 0 ≤ i)
    (h1 : i < (buf.length : ℤ)) :
    pySet buf i v = some (buf.set i.toNat v) := by
  simp [pySet, h0, h1]

theorem pyAdd_nonneg (buf : List ℚ) (i : ℤ) (v : ℚ) (h0 : 0 ≤ i)
    (h1 : i < (buf.length : ℤ)) :
    pyAdd buf i v = some (buf.set i.toNat (buf.getD i.toNat 0 + v)) := by
  simp [pyAdd, pyGet, pySet, h0, h1]

theorem pyAdd_neg (buf : List ℚ) (i : ℤ) (v : ℚ) (h0 : i < 0)
    (h1 : -(buf.length : ℤ) ≤ i) :
    pyAdd buf i v =
      some (buf.set ((buf.length : ℤ) + i).toNat
        (buf.getD ((buf.length : ℤ) + i).toNat 0 + v)) := by
  simp [pyAdd, pyGet, pySet, not_le.mpr h0, h1]

theorem applyReflectionsAux_char (offset : ℚ) (taps : List (ℚ × ℚ)) (i0 : ℕ)
    (buf : List ℚ) (hb : buf.length = IR_SAMPLES)
    (hnn : ∀ t ∈ taps, 0 ≤ tapIndex offset t) :
    ∃ buf', applyReflectionsAux offset i0 buf taps = some buf' ∧
      buf'.length = IR_SAMPLES ∧
      ∀ j : ℕ, j < IR_SAMPLES →
        buf'.getD j 0 = buf.getD j 0 + tapContrib offset i0 j taps := by
  induction taps generalizing i0 buf with
  | nil => exact ⟨buf, rfl, hb, fun j _ => by simp [tapContrib]⟩
  | cons t rest ih =>
    obtain ⟨dm, rg⟩ := t
    have h0 : 0 ≤ ms_to_samples (dm + offset) := by
      simpa [tapIndex] using hnn (dm, rg) (by simp)
    by_cases hlt : ms_to_samples (dm + offset) < (IR_SAMPLES : ℤ)
    · -- in-bounds tap: `buf[total_delay] += ref_gain * polarity`
      have hlt' : ms_to_samples (dm + offset) < (buf.length : ℤ) := by
        rw [hb]; exact hlt
      have hadd := pyAdd_nonneg buf (ms_to_samples (dm + offset))
        (rg * tapPolarity i0) h0 hlt'
      set k : ℕ := (ms_to_samples (dm + offset)).toNat with hk
      have hki : (k : ℤ) = ms_to_samples (dm + offset) := by
        rw [hk]; exact Int.toNat_of_nonneg h0
      set buf1 : List ℚ := buf.set k (buf.getD k 0 + rg * tapPolarity i0) with hbuf1
      have hb1 : buf1.length = IR_SAMPLES := by simp [hbuf1, hb]
      obtain ⟨buf', hrun, hlen, hval⟩ := ih (i0 + 1) buf1 hb1
        (fun t ht => hnn t (by simp [ht]))
      refine ⟨buf', ?_, hlen, ?_⟩
      · show applyReflectionsAux offset i0 buf ((dm, rg) :: rest) = some buf'
        simp only [applyReflectionsAux, hlt, if_true]
        rw [show (if i0 % 2 = 0 then (1 : ℚ) else -1) = tapPolarity i0 from rfl,
          hadd]
        exact hrun
      · intro j hj
        rw [hval j hj]
        have hcontrib : tapContrib offset i0 j ((dm, rg) :: rest) =
            (if tapIndex offset (dm, rg) = (j : ℤ) then rg * tapPolarity i0 else 0) +
              tapContrib offset (i0 + 1) j rest := rfl
        by_cases hjk : j = k
        · have hix : tapIndex offset (dm, rg) = (j : ℤ) := by
            simp only [tapIndex]
            omega
          rw [hcontrib, if_pos hix, hbuf1, hjk, getD_set_self buf k _ (by omega)]
          ring
        · have hix : ¬ tapIndex offset (dm, rg) = (j : ℤ) := by
            simp only [tapIndex]
            omega
          rw [hcontrib, if_neg hix, hbuf1, getD_set_ne buf k j _ hjk]
          ring
    · -- out-of-range tap: silently skipped
      obtain ⟨buf', hrun, hlen, hval⟩ := ih (i0 + 1) buf hb
        (fun t ht => hnn t (by simp [ht]))
      refine ⟨buf', ?_, hlen, ?_⟩
      · show applyReflectionsAux offset i0 buf ((dm, rg) :: rest) = some buf'
        simp only [applyReflectionsAux, hlt, if_false]
        exact hrun
      · intro j hj
        rw [hval j hj]
        have hix : ¬ tapIndex offset (dm, rg) = (j : ℤ) := by
          simp only [tapIndex]
          omega
        have hcontrib : tapContrib offset i0 j ((dm, rg) :: rest) =
            (if tapIndex offset (dm, rg) = (j : ℤ) then rg * tapPolarity i0 else 0) +
              tapContrib offset (i0 + 1) j rest := rfl
        rw [hcontrib, if_neg hix]
        ring

theorem generate_channel_char (g : ℚ) (taps : List (ℚ × ℚ)) (is_cross : Bool)
    (d : ℚ) (co : Option ℚ)
    (h1 : 0 ≤ (if is_cross then ms_to_samples d else 0))
    (h2 : ∀ t ∈ taps, 0 ≤ tapIndex (if is_cross then d else 0) t) :
    ∃ buf, generate_channel g taps is_cross d co = some buf ∧
      buf.length = IR_SAMPLES ∧
      ((is_cross = false ∨ co = none) → ∀ j : ℕ, j < IR_SAMPLES →
        buf.getD j 0 =
          (if (if is_cross then ms_to_samples d else 0) = (j : ℤ) then g else 0) +
            tapContrib (if is_cross then d else 0) 0 j taps) := by
  obtain ⟨buf1, hs1, hb1, hv1⟩ : ∃ buf1,
      (if (if is_cross then ms_to_samples d else 0) < (IR_SAMPLES : ℤ) then
        pySet (List.replicate IR_SAMPLES 0) (if is_cross then ms_to_samples d else 0) g
      else some (List.replicate IR_SAMPLES 0)) = some buf1 ∧
      buf1.length = IR_SAMPLES ∧
      ∀ j : ℕ, j < IR_SAMPLES →
        buf1.getD j 0 =
          if (if is_cross then ms_to_samples d else 0) = (j : ℤ) then g else 0 := by
    set ds : ℤ := if is_cross then ms_to_samples d else 0 with hds0
    by_cases hds : ds < (IR_SAMPLES : ℤ)
    · have hdsi : ((ds.toNat : ℤ)) = ds := Int.toNat_of_nonneg h1
      refine ⟨(List.replicate IR_SAMPLES (0 : ℚ)).set ds.toNat g, ?_, by simp, ?_⟩
      · rw [if_pos hds, pySet_nonneg _ _ _ h1 (by simpa using hds)]
      · intro j hj
        by_cases hjd : j = ds.toNat
        · rw [hjd, getD_set_self _ _ _ (by simp; omega), if_pos (by omega)]
        · rw [getD_set_ne _ _ _ _ hjd, getD_replicate_zero, if_neg (by omega)]
    · refine ⟨List.replicate IR_SAMPLES 0, by rw [if_neg hds], by simp, ?_⟩
      intro j hj
      rw [getD_replicate_zero, if_neg (by omega)]
  obtain ⟨buf2, hs2, hb2, hv2⟩ :=
    applyReflectionsAux_char (if is_cross then d else 0) taps 0 buf1 hb1 h2
  have hgen : generate_channel g taps is_cross d co =
      if is_cross ∧ lpfTruthy co then
        some (apply_lpf_to_impulse buf2 (co.getD 0) (SAMPLE_RATE : ℚ))
      else some buf2 := by
    simp only [generate_channel, hs1, hs2]
  by_cases hfil : is_cross ∧ lpfTruthy co
  · refine ⟨apply_lpf_to_impulse buf2 (co.getD 0) (SAMPLE_RATE : ℚ), ?_, ?_, ?_⟩
    · rw [hgen, if_pos hfil]
    · exact (lpfLoop_length _ _ _).trans hb2
    · rintro (hic | hco) j hj
      · exact absurd hfil.1 (by simp [hic])
      · rw [hco] at hfil
        simp [lpfTruthy] at hfil
  · refine ⟨buf2, by rw [hgen, if_neg hfil], hb2, ?_⟩
    intro _ j hj
    rw [hv2 j hj, hv1 j hj]

theorem pySet_neg (buf : List ℚ) (i : ℤ) (v : ℚ) (h0 : i < 0)
    (h1 : -(buf.length : ℤ) ≤ i) :
    pySet buf i v = some (buf.set ((buf.length : ℤ) + i).toNat v) := by
  simp [pySet, not_le.mpr h0, h1]

theorem IR_SAMPLES_eq : IR_SAMPLES = 3840 := rfl

/-- Claim C4: the synthesizer processes reflection taps in input order; the
tap at 0-based position `i` with in-bounds destination `d` adds (does not
overwrite) `ref_gain * polarity` to `buffer[d]` with polarity `+1` for even
`i`, `-1` for odd `i`; taps mapping to the same index accumulate additively:
every in-range sample equals the primary impulse contribution plus the sum
of the signed contributions of the taps landing there. -/
theorem C4_reflection_taps_accumulate (g : ℚ) (taps : List (ℚ × ℚ))
    (hin : ∀ t ∈ taps, 0 ≤ tapIndex 0 t ∧ tapIndex 0 t < (IR_SAMPLES : ℤ)) :
    ∃ buf, generate_channel g taps false 0 none = some buf ∧
      ∀ j : ℕ, j < IR_SAMPLES →
        buf.getD j 0 = (if j = 0 then g else 0) + tapContrib 0 0 j taps := by
  obtain ⟨buf, hs, hb, hv⟩ := generate_channel_char g taps false 0 none
    (by simp) (fun t ht => by simpa using (hin t ht).1)
  refine ⟨buf, hs, ?_⟩
  intro j hj
  have h := hv (Or.inl rfl) j hj
  simp only [Bool.false_eq_true, if_false] at h
  rw [h]
  by_cases hj0 : j = 0
  · subst hj0
    simp
  · rw [if_neg (by omega), if_neg hj0]

/-- Witness for C4: two taps at the same 1 ms delay (index 48) accumulate. -/
theorem C4_reflection_taps_accumulate_witness :
    (∀ t ∈ [((1 : ℚ), (1 / 2 : ℚ)), (1, 1 / 4)],
      0 ≤ tapIndex 0 t ∧ tapIndex 0 t < (IR_SAMPLES : ℤ)) ∧
    ∃ buf, generate_channel 1 [((1 : ℚ), (1 / 2 : ℚ)), (1, 1 / 4)] false 0 none =
        some buf ∧
      ∀ j : ℕ, j < IR_SAMPLES →
        buf.getD j 0 = (if j = 0 then (1 : ℚ) else 0) +
          tapContrib 0 0 j [((1 : ℚ), (1 / 2 : ℚ)), (1, 1 / 4)] :=
  ⟨by norm_num [tapIndex, ms_to_samples, truncQ, SAMPLE_RATE, IR_SAMPLES, IR_DURATION_MS],
   C4_reflection_taps_accumulate 1 [(1, 1 / 2), (1, 1 / 4)]
     (by norm_num [tapIndex, ms_to_samples, truncQ, SAMPLE_RATE, IR_SAMPLES, IR_DURATION_MS])⟩

theorem set_zero_replicate (n : ℕ) :
    (List.replicate n (0 : ℚ)).set 0 0 = List.replicate n 0 := by
  cases n <;> simp [List.replicate_succ]

theorem generate_channel_eq_placeStage (g : ℚ) (taps : List (ℚ × ℚ))
    (ic : Bool) (d : ℚ) (co : Option ℚ) :
    generate_channel g taps ic d co =
      match placeStage g taps ic d with
      | none => none
      | some buf2 =>
        if ic ∧ lpfTruthy co then
          some (apply_lpf_to_impulse buf2 (co.getD 0) (SAMPLE_RATE : ℚ))
        else some buf2 := by
  simp only [generate_channel, placeStage]
  generalize (if (if ic then ms_to_samples d else 0) < (IR_SAMPLES : ℤ) then
      pySet (List.replicate IR_SAMPLES 0) (if ic then ms_to_samples d else 0) g
    else some (List.replicate IR_SAMPLES 0)) = s
  cases s with
  | none => rfl
  | some b1 =>
    generalize applyReflectionsAux (if ic then d else 0) 0 b1 taps = s2
    cases s2 <;> rfl

theorem generate_channel_some_filter (g : ℚ) (taps : List (ℚ × ℚ)) (d c : ℚ)
    (hc : c ≠ 0) :
    generate_channel g taps true d (some c) =
      (generate_channel g taps true d none).map
        (fun b => apply_lpf_to_impulse b c (SAMPLE_RATE : ℚ)) := by
  rw [generate_channel_eq_placeStage g taps true d (some c),
    generate_channel_eq_placeStage g taps true d none]
  cases placeStage g taps true d with
  | none => rfl
  | some b => simp [lpfTruthy, hc]

/-- Claim C7 counterexample: the claim promises no exception for any cross
delay, but at cross_delay_ms = −100 the converted index −4800 lies below
−IR_SAMPLES and the buffer assignment raises IndexError (modelled as `none`). -/
theorem C7_counterexample : generate_channel 1 [] true (-100) none = none := by
  have hms : ms_to_samples (-100) = -4800 := by
    norm_num [ms_to_samples, truncQ, SAMPLE_RATE, Int.ceil_neg]
  have hset : pySet (List.replicate IR_SAMPLES (0 : ℚ)) (-4800) 1 = none := by
    rw [pySet, List.length_replicate]
    rw [if_neg (by norm_num), if_neg (by norm_num [IR_SAMPLES_eq])]
  have hlt : (-4800 : ℤ) < (IR_SAMPLES : ℤ) := by norm_num [IR_SAMPLES_eq]
  simp [generate_channel, hms, hset, hlt]

/-- Claim C7 amended: provided every converted sample index (primary impulse
and reflection taps) is non-negative, the synthesizer raises no exception and
returns a buffer of IR_SAMPLES samples; a primary impulse or tap whose index
is not less than IR_SAMPLES is silently omitted, leaving every other buffer
position unaffected (each unfiltered in-range sample is exactly the primary
contribution plus the signed contributions of the in-range taps landing on it). -/
theorem C7_graceful_degradation (g : ℚ) (taps : List (ℚ × ℚ)) (is_cross : Bool)
    (d : ℚ) (co : Option ℚ)
    (h1 : 0 ≤ (if is_cross then ms_to_samples d else 0))
    (h2 : ∀ t ∈ taps, 0 ≤ tapIndex (if is_cross then d else 0) t) :
    ∃ buf, generate_channel g taps is_cross d co = some buf ∧
      buf.length = IR_SAMPLES ∧
      ((is_cross = false ∨ co = none) → ∀ j : ℕ, j < IR_SAMPLES →
        buf.getD j 0 =
          (if (if is_cross then ms_to_samples d else 0) = (j : ℤ) then g else 0) +
            tapContrib (if is_cross then d else 0) 0 j taps) :=
  generate_channel_char g taps is_cross d co h1 h2

/-- Witness for C7: a 100 ms tap (index 4800 ≥ 3840) is silently dropped. -/
theorem C7_graceful_degradation_witness :
    (0 ≤ (if (false : Bool) then ms_to_samples 0 else 0)) ∧
    (∀ t ∈ [((100 : ℚ), (1 / 2 : ℚ))],
      0 ≤ tapIndex (if (false : Bool) then (0 : ℚ) else 0) t) ∧
    ∃ buf, generate_channel 1 [((100 : ℚ), (1 / 2 : ℚ))] false 0 none = some buf ∧
      buf.length = IR_SAMPLES ∧
      ((false = false ∨ (none : Option ℚ) = none) → ∀ j : ℕ, j < IR_SAMPLES →
        buf.getD j 0 =
          (if (if (false : Bool) then ms_to_samples 0 else 0) = (j : ℤ) then (1 : ℚ)
            else 0) +
            tapContrib (if (false : Bool) then (0 : ℚ) else 0) 0 j
              [((100 : ℚ), (1 / 2 : ℚ))]) :=
  ⟨by simp,
   by norm_num [tapIndex, ms_to_samples, truncQ, SAMPLE_RATE],
   C7_graceful_degradation 1 [((100 : ℚ), (1 / 2 : ℚ))] false 0 none (by simp)
     (by norm_num [tapIndex, ms_to_samples, truncQ, SAMPLE_RATE])⟩

/-- Claim C2 counterexample: at cross delay 5.2 ms the product 5.2·48 = 249.6
rounds to 250, but the code places the impulse at index 249 (truncation) and
index 250 stays 0. -/
theorem C2_counterexample :
    round ((26 / 5 : ℚ) * 48000 / 1000) = 250 ∧
    ∃ buf, generate_channel 1 [] true (26 / 5) none = some buf ∧
      buf.getD 249 0 = 1 ∧ buf.getD 250 0 = 0 := by
  have hms : ms_to_samples (26 / 5) = 249 := by
    norm_num [ms_to_samples, truncQ, SAMPLE_RATE]
  refine ⟨by norm_num [round_eq], ?_⟩
  obtain ⟨buf, hs, hb, hv⟩ := generate_channel_char 1 [] true (26 / 5) none
    (by norm_num [hms]) (by simp)
  refine ⟨buf, hs, ?_, ?_⟩
  · have h := hv (Or.inr rfl) 249 (by norm_num [IR_SAMPLES_eq])
    rw [h]
    simp [hms, tapContrib]
  · have h := hv (Or.inr rfl) 250 (by norm_num [IR_SAMPLES_eq])
    rw [h]
    simp [hms, tapContrib]

/-- Claim C2 amended: the delay-to-index conversion truncates toward zero
(Python `int()`), so 5.2 ms yields index 249, not round(249.6) = 250; an
in-range truncated index receives the gain. -/
theorem C2_truncation_placement (g d : ℚ)
    (h0 : 0 ≤ ms_to_samples d) (h1 : ms_to_samples d < (IR_SAMPLES : ℤ)) :
    ms_to_samples d = truncQ (d * (SAMPLE_RATE : ℚ) / 1000) ∧
    ∃ buf, generate_channel g [] true d none = some buf ∧
      buf.getD (ms_to_samples d).toNat 0 = g := by
  refine ⟨rfl, ?_⟩
  obtain ⟨buf, hs, hb, hv⟩ := generate_channel_char g [] true d none
    (by simpa using h0) (by simp)
  refine ⟨buf, hs, ?_⟩
  have hj : (ms_to_samples d).toNat < IR_SAMPLES := by omega
  have h := hv (Or.inr rfl) _ hj
  rw [h, if_pos (by simp [Int.toNat_of_nonneg h0])]
  simp [tapContrib]

/-- Witness for C2 (amended) at 5.2 ms: the truncated index is 249. -/
theorem C2_truncation_placement_witness :
    (0 ≤ ms_to_samples (26 / 5) ∧ ms_to_samples (26 / 5) < (IR_SAMPLES : ℤ)) ∧
    (ms_to_samples (26 / 5) = truncQ ((26 / 5) * (SAMPLE_RATE : ℚ) / 1000) ∧
      ∃ buf, generate_channel 1 [] true (26 / 5) none = some buf ∧
        buf.getD (ms_to_samples (26 / 5)).toNat 0 = 1) :=
  ⟨by norm_num [ms_to_samples, truncQ, SAMPLE_RATE, IR_SAMPLES, IR_DURATION_MS],
   C2_truncation_placement 1 (26 / 5)
     (by norm_num [ms_to_samples, truncQ, SAMPLE_RATE])
     (by norm_num [ms_to_samples, truncQ, SAMPLE_RATE, IR_SAMPLES, IR_DURATION_MS])⟩

/-- Claim C10: the synthesizer checks only the upper bound. A delay whose
converted sample index n is negative with −IR_SAMPLES ≤ n < 0 passes the
`< IR_SAMPLES` guard, and Python negative indexing writes the primary impulse
(first part) or the reflection tap (second part) at index IR_SAMPLES + n near
the end of the buffer instead of dropping it. -/
theorem C10_negative_index_wraps (g rg d dm : ℚ)
    (h1 : -(IR_SAMPLES : ℤ) ≤ ms_to_samples d) (h2 : ms_to_samples d < 0)
    (h3 : -(IR_SAMPLES : ℤ) ≤ ms_to_samples dm) (h4 : ms_to_samples dm < 0) :
    (∃ buf, generate_channel g [] true d none = some buf ∧
      buf.getD ((IR_SAMPLES : ℤ) + ms_to_samples d).toNat 0 = g) ∧
    (∃ buf, generate_channel 0 [(dm, rg)] false 0 none = some buf ∧
      buf.getD ((IR_SAMPLES : ℤ) + ms_to_samples dm).toNat 0 = rg) := by
  constructor
  · -- primary impulse with negative converted index
    have hlt : ms_to_samples d < (IR_SAMPLES : ℤ) := by omega
    have hset : pySet (List.replicate IR_SAMPLES (0 : ℚ)) (ms_to_samples d) g =
        some ((List.replicate IR_SAMPLES (0 : ℚ)).set
          ((IR_SAMPLES : ℤ) + ms_to_samples d).toNat g) := by
      rw [pySet_neg _ _ _ h2 (by simpa using h1)]
      simp
    have hq : generate_channel g [] true d none =
        some ((List.replicate IR_SAMPLES (0 : ℚ)).set
          ((IR_SAMPLES : ℤ) + ms_to_samples d).toNat g) := by
      simp [generate_channel, hlt, hset, applyReflectionsAux, lpfTruthy]
    have hk : ((IR_SAMPLES : ℤ) + ms_to_samples d).toNat < IR_SAMPLES := by omega
    exact ⟨_, hq, getD_set_self _ _ _ (by simpa using hk)⟩
  · -- reflection tap with negative converted index
    have hIR : (0 : ℤ) < (IR_SAMPLES : ℤ) := by norm_num [IR_SAMPLES_eq]
    have hltm : ms_to_samples dm < (IR_SAMPLES : ℤ) := by omega
    have hset0 : pySet (List.replicate IR_SAMPLES (0 : ℚ)) 0 0 =
        some (List.replicate IR_SAMPLES 0) := by
      rw [pySet_nonneg _ _ _ le_rfl (by simpa using hIR), Int.toNat_zero,
        set_zero_replicate]
    have hadd : pyAdd (List.replicate IR_SAMPLES (0 : ℚ)) (ms_to_samples dm) rg =
        some ((List.replicate IR_SAMPLES (0 : ℚ)).set
          ((IR_SAMPLES : ℤ) + ms_to_samples dm).toNat rg) := by
      rw [pyAdd_neg _ _ _ h4 (by simpa using h3)]
      simp [getD_replicate_zero]
    have hq : generate_channel 0 [(dm, rg)] false 0 none =
        some ((List.replicate IR_SAMPLES (0 : ℚ)).set
          ((IR_SAMPLES : ℤ) + ms_to_samples dm).toNat rg) := by
      simp [generate_channel, hIR, hset0, applyReflectionsAux, hltm, hadd, lpfTruthy]
    have hk : ((IR_SAMPLES : ℤ) + ms_to_samples dm).toNat < IR_SAMPLES := by omega
    exact ⟨_, hq, getD_set_self _ _ _ (by simpa using hk)⟩

/-- Witness for C10 at delay −1 ms (index −48, wrapped to 3792). -/
theorem C10_negative_index_wraps_witness :
    (-(IR_SAMPLES : ℤ) ≤ ms_to_samples (-1) ∧ ms_to_samples (-1) < 0) ∧
    ((∃ buf, generate_channel 1 [] true (-1) none = some buf ∧
        buf.getD ((IR_SAMPLES : ℤ) + ms_to_samples (-1)).toNat 0 = 1) ∧
      ∃ buf, generate_channel 0 [((-1 : ℚ), (1 / 2 : ℚ))] false 0 none = some buf ∧
        buf.getD ((IR_SAMPLES : ℤ) + ms_to_samples (-1)).toNat 0 = 1 / 2) :=
  ⟨by norm_num [ms_to_samples, truncQ, SAMPLE_RATE, Int.ceil_neg, IR_SAMPLES_eq],
   C10_negative_index_wraps 1 (1 / 2) (-1) (-1)
     (by norm_num [ms_to_samples, truncQ, SAMPLE_RATE, Int.ceil_neg, IR_SAMPLES_eq])
     (by norm_num [ms_to_samples, truncQ, SAMPLE_RATE, Int.ceil_neg])
     (by norm_num [ms_to_samples, truncQ, SAMPLE_RATE, Int.ceil_neg, IR_SAMPLES_eq])
     (by norm_num [ms_to_samples, truncQ, SAMPLE_RATE, Int.ceil_neg])⟩

/-- Claim C5 counterexample: with is_cross true and a negative cutoff −5 Hz
(a non-positive but truthy value), the filter IS applied, so the result
differs from the unfiltered buffer, contradicting the claim that every
non-positive cutoff leaves the buffer unfiltered. -/
theorem C5_counterexample :
    generate_channel 1 [] true 0 (some (-5)) ≠ generate_channel 1 [] true 0 none := by
  intro h
  have hms0 : ms_to_samples 0 = 0 := by
    norm_num [ms_to_samples, truncQ, SAMPLE_RATE]
  obtain ⟨buf, hsR, hb, hv⟩ := generate_channel_char 1 [] true 0 none
    (by norm_num [hms0]) (by simp)
  rw [generate_channel_some_filter 1 [] 0 (-5) (by norm_num), hsR] at h
  simp only [Option.map_some', Option.some.injEq] at h
  have h0 : buf.getD 0 0 = 1 := by
    have hh := hv (Or.inr rfl) 0 (by norm_num [IR_SAMPLES_eq])
    simpa [hms0, tapContrib] using hh
  cases buf with
  | nil => norm_num [IR_SAMPLES_eq] at hb
  | cons b0 rest =>
    have hhead : (apply_lpf_to_impulse (b0 :: rest) (-5) (SAMPLE_RATE : ℚ)).getD 0 0 =
        0 + lpfAlpha (-5) (SAMPLE_RATE : ℚ) * (b0 - 0) :=
      lpfLoop_getD_zero _ _ _ _
    rw [h] at hhead
    have hb0 : b0 = 1 := by simpa using h0
    rw [List.getD_cons_zero, hb0] at hhead
    have halpha : lpfAlpha (-5) (SAMPLE_RATE : ℚ) = 1 := by linarith
    norm_num [lpfAlpha, mathPi, SAMPLE_RATE] at halpha

/-- Claim C5 amended: the low-pass filter is applied exactly when `is_cross`
is true and `cross_lpf_freq` is truthy (present and nonzero) — a negative
cutoff also triggers filtering; with the cutoff absent or zero, or with
`is_cross` false, the buffer is returned without any filtering. -/
theorem C5_truthiness_condition (g : ℚ) (taps : List (ℚ × ℚ)) (d c : ℚ)
    (hc : c ≠ 0) :
    generate_channel g taps true d (some c) =
      (generate_channel g taps true d none).map
        (fun b => apply_lpf_to_impulse b c (SAMPLE_RATE : ℚ)) ∧
    generate_channel g taps true d (some 0) = generate_channel g taps true d none ∧
    ∀ co : Option ℚ, generate_channel g taps false d co =
      generate_channel g taps false d none := by
  refine ⟨generate_channel_some_filter g taps d c hc, ?_, ?_⟩
  · rw [generate_channel_eq_placeStage g taps true d (some 0),
      generate_channel_eq_placeStage g taps true d none]
    cases placeStage g taps true d <;> simp [lpfTruthy]
  · intro co
    rw [generate_channel_eq_placeStage g taps false d co,
      generate_channel_eq_placeStage g taps false d none]
    cases placeStage g taps false d <;> simp

/-- Witness for C5 (amended) at cutoff −5 Hz. -/
theorem C5_truthiness_condition_witness :
    ((-5 : ℚ) ≠ 0) ∧
    (generate_channel 1 [] true 0 (some (-5)) =
      (generate_channel 1 [] true 0 none).map
        (fun b => apply_lpf_to_impulse b (-5) (SAMPLE_RATE : ℚ)) ∧
    generate_channel 1 [] true 0 (some 0) = generate_channel 1 [] true 0 none ∧
    ∀ co : Option ℚ, generate_channel 1 [] false 0 co =
      generate_channel 1 [] false 0 none) :=
  ⟨by norm_num, C5_truthiness_condition 1 [] 0 (-5) (by norm_num)⟩

/-- Claim C3: for every valid preset the 4-channel output has channel RR
(index 1) value-for-value equal to channel LL (index 0) and channel RL
(index 3) equal to channel LR (index 2): the channel list is literally
[ll, ll, lr, lr], produced by two synthesizer calls plus duplication. -/
theorem C3_channel_duplication (name : String)
    (h : name = "light" ∨ name = "medium" ∨ name = "heavy") :
    ∃ ll lr, generateIRChannels name = .ok [ll, ll, lr, lr] := by
  have hgen : ∀ p : Preset,
      0 ≤ ms_to_samples p.cross_delay_ms →
      (∀ t ∈ p.reflections, 0 ≤ tapIndex 0 t) →
      (∀ t ∈ p.cross_reflections, 0 ≤ tapIndex p.cross_delay_ms t) →
      ∃ ll lr,
        generate_channel p.direct_gain p.reflections false 0 none = some ll ∧
        generate_channel p.cross_gain p.cross_reflections true p.cross_delay_ms
          (some p.cross_lpf_freq) = some lr := by
    intro p hd hr hcr
    obtain ⟨ll, hll, -, -⟩ := generate_channel_char p.direct_gain p.reflections
      false 0 none (by simp) (fun t ht => by simpa using hr t ht)
    obtain ⟨lr, hlr, -, -⟩ := generate_channel_char p.cross_gain p.cross_reflections
      true p.cross_delay_ms (some p.cross_lpf_freq) (by simpa using hd)
      (fun t ht => by simpa using hcr t ht)
    exact ⟨ll, lr, hll, hlr⟩
  rcases h with h | h | h <;> subst h
  · obtain ⟨ll, lr, hll, hlr⟩ := hgen presetLight
      (by norm_num [presetLight, ms_to_samples, truncQ, SAMPLE_RATE])
      (by norm_num [presetLight, tapIndex, ms_to_samples, truncQ, SAMPLE_RATE])
      (by norm_num [presetLight, tapIndex, ms_to_samples, truncQ, SAMPLE_RATE])
    refine ⟨ll, lr, ?_⟩
    simp [generateIRChannels, PRESETS, hll, hlr]
  · obtain ⟨ll, lr, hll, hlr⟩ := hgen presetMedium
      (by norm_num [presetMedium, ms_to_samples, truncQ, SAMPLE_RATE])
      (by norm_num [presetMedium, tapIndex, ms_to_samples, truncQ, SAMPLE_RATE])
      (by norm_num [presetMedium, tapIndex, ms_to_samples, truncQ, SAMPLE_RATE])
    refine ⟨ll, lr, ?_⟩
    simp [generateIRChannels, PRESETS, hll, hlr]
  · obtain ⟨ll, lr, hll, hlr⟩ := hgen presetHeavy
      (by norm_num [presetHeavy, ms_to_samples, truncQ, SAMPLE_RATE])
      (by norm_num [presetHeavy, tapIndex, ms_to_samples, truncQ, SAMPLE_RATE])
      (by norm_num [presetHeavy, tapIndex, ms_to_samples, truncQ, SAMPLE_RATE])
    refine ⟨ll, lr, ?_⟩
    simp [generateIRChannels, PRESETS, hll, hlr]

/-- Witness for C3 at the "medium" preset. -/
theorem C3_channel_duplication_witness :
    ∃ ll lr, generateIRChannels "medium" = .ok [ll, ll, lr, lr] :=
  C3_channel_duplication "medium" (Or.inr (Or.inl rfl))

/-- Claim C8: for every preset name not among light/medium/heavy, generation
fails with a ValueError whose message names the valid presets; the failure
happens before any synthesis and before any output byte exists (the error
result carries no channel data and no byte stream, so nothing is written). -/
theorem C8_unknown_preset_rejected (packf : ℚ → List ℕ) (name : String)
    (h : name ∉ ["light", "medium", "heavy"]) :
    generate_ir packf name =
      .valueError
        ("Unknown preset: " ++ name ++ ". Choose from: light, medium, heavy") ∧
    generateIRChannels name =
      .valueError
        ("Unknown preset: " ++ name ++ ". Choose from: light, medium, heavy") := by
  have h1 : ¬ ("light" = name) := fun he => h (by rw [← he]; simp)
  have h2 : ¬ ("medium" = name) := fun he => h (by rw [← he]; simp)
  have h3 : ¬ ("heavy" = name) := fun he => h (by rw [← he]; simp)
  have hmsg : "Unknown preset: " ++ name ++ ". Choose from: " ++
      String.intercalate ", " (PRESETS.map Prod.fst) =
      "Unknown preset: " ++ name ++ ". Choose from: light, medium, heavy" := by
    have hj : String.intercalate ", " (PRESETS.map Prod.fst) =
        "light, medium, heavy" := by
      have hm : PRESETS.map Prod.fst = ["light", "medium", "heavy"] := by
        simp [PRESETS]
      rw [hm]
      decide
    rw [hj]
    simp [String.append_assoc]
  have hfil : PRESETS.filter (fun kv => kv.1 = name) = [] := by
    simp [PRESETS, List.filter, h1, h2, h3]
  have hchan : generateIRChannels name =
      .valueError
        ("Unknown preset: " ++ name ++ ". Choose from: light, medium, heavy") := by
    simp only [generateIRChannels, hfil, List.head?_nil]
    rw [hmsg]
  exact ⟨by simp [generate_ir, hchan], hchan⟩

/-- Witness for C8 at the unknown name "ultra". -/
theorem C8_unknown_preset_rejected_witness :
    "ultra" ∉ ["light", "medium", "heavy"] ∧
    generate_ir (fun _ => []) "ultra" =
      .valueError
        ("Unknown preset: " ++ "ultra" ++ ". Choose from: light, medium, heavy") :=
  ⟨by decide, (C8_unknown_preset_rejected (fun _ => []) "ultra" (by decide)).1⟩

/-! ## Lemmas about the container encoder -/

theorem optMapM_eq_map {α β : Type} (f : α → Option β) (g : α → β) (l : List α)
    (h : ∀ a ∈ l, f a = some (g a)) : optMapM f l = some (l.map g) := by
  induction l with
  | nil => rfl
  | cons a as ih =>
    have ha := h a (by simp)
    have his := ih (fun x hx => h x (by simp [hx]))
    simp [optMapM, ha, his]

theorem frameBytes_eq (packf : ℚ → List ℕ) (channels : List (List ℚ)) (i : ℕ)
    (h : ∀ c ∈ channels, i < c.length) :
    frameBytes packf channels i =
      some ((channels.map (fun c => packf (c.getD i 0))).flatten) := by
  have hm : optMapM (fun c => c.get? i) channels =
      some (channels.map (fun c => c.getD i 0)) :=
    optMapM_eq_map _ _ _ (fun c hc => by
      rw [List.getD_eq_getElem?_getD, List.get?_eq_getElem?,
        List.getElem?_eq_getElem (h c hc)]
      rfl)
  simp only [frameBytes]
  rw [hm]
  simp [List.map_map, Function.comp_def]

theorem payloadBytes_eq (packf : ℚ → List ℕ) (channels : List (List ℚ)) (n : ℕ)
    (h : ∀ c ∈ channels, n ≤ c.length) :
    payloadBytes packf channels n =
      some (((List.range n).map (fun i =>
        (channels.map (fun c => packf (c.getD i 0))).flatten)).flatten) := by
  have hm : optMapM (frameBytes packf channels) (List.range n) =
      some ((List.range n).map (fun i =>
        (channels.map (fun c => packf (c.getD i 0))).flatten)) :=
    optMapM_eq_map _ _ _ (fun i hi => frameBytes_eq packf channels i
      (fun c hc => lt_of_lt_of_le (List.mem_range.mp hi) (h c hc)))
  simp [payloadBytes, hm]

theorem packU16_lt (v : ℕ) (h : v < 65536) : packU16 v = some (u16le v) :=
  if_pos h

theorem packU32_lt (v : ℕ) (h : v < 4294967296) : packU32 v = some (u32le v) :=
  if_pos h

/-- Claim C1: for N ≥ 1 equal-length channels whose sizes fit the packed
fields, the encoder produces exactly the bytes RIFF + (36+data_size) as
u32 LE + WAVE, then fmt + 16 + format code 3 + channel count (u16) + sample
rate (u32) + byte rate sr·N·4 (u32) + block align N·4 (u16) + 32 bits per
sample (u16), then data + data_size = num_samples·N·4, followed by the
payload interleaved time-major: for each time t, each channel's sample at t
in channel order, each through the 4-byte sample encoder `packf`. -/
theorem C1_wav_byte_layout (packf : ℚ → List ℕ) (c0 : List ℚ)
    (rest : List (List ℚ)) (sr : ℕ)
    (hlen : ∀ c ∈ (c0 :: rest), c.length = c0.length)
    (hds : 36 + c0.length * ((c0 :: rest).length * 4) < 4294967296)
    (hch : (c0 :: rest).length < 65536)
    (hba : (c0 :: rest).length * 4 < 65536)
    (hsr : sr < 4294967296)
    (hbr : sr * (c0 :: rest).length * 4 < 4294967296) :
    write_wav packf (c0 :: rest) sr = some (
      asciiBytes "RIFF" ++ u32le (36 + c0.length * ((c0 :: rest).length * 4)) ++
      asciiBytes "WAVE" ++ asciiBytes "fmt " ++ u32le 16 ++ u16le 3 ++
      u16le (c0 :: rest).length ++ u32le sr ++
      u32le (sr * (c0 :: rest).length * 4) ++ u16le ((c0 :: rest).length * 4) ++
      u16le 32 ++ asciiBytes "data" ++
      u32le (c0.length * ((c0 :: rest).length * 4)) ++
      ((List.range c0.length).map (fun t =>
        ((c0 :: rest).map (fun c => packf (c.getD t 0))).flatten)).flatten) := by
  have hpay : payloadBytes packf (c0 :: rest) c0.length =
      some (((List.range c0.length).map (fun t =>
        ((c0 :: rest).map (fun c => packf (c.getD t 0))).flatten)).flatten) :=
    payloadBytes_eq packf (c0 :: rest) c0.length
      (fun c hc => le_of_eq (hlen c hc).symm)
  simp only [write_wav]
  rw [show (32 : ℕ) / 8 = 4 from rfl]
  rw [packU32_lt _ hds, packU32_lt 16 (by norm_num), packU16_lt 3 (by norm_num),
    packU16_lt _ hch, packU32_lt sr hsr, packU32_lt _ hbr, packU16_lt _ hba,
    packU16_lt 32 (by norm_num), packU32_lt _ (by omega), hpay]

/-- Witness for C1 on two one-sample channels at 48000 Hz. -/
theorem C1_wav_byte_layout_witness :
    ((∀ c ∈ [[(1 : ℚ)], [(2 : ℚ)]], c.length = 1) ∧
      36 + 1 * (2 * 4) < 4294967296 ∧ (2 : ℕ) < 65536 ∧ 2 * 4 < 65536 ∧
      (48000 : ℕ) < 4294967296 ∧ 48000 * 2 * 4 < 4294967296) ∧
    write_wav (fun _ => [0, 0, 0, 0]) [[(1 : ℚ)], [(2 : ℚ)]] 48000 = some (
      asciiBytes "RIFF" ++
      u32le (36 + ([(1 : ℚ)]).length * (([[(1 : ℚ)], [(2 : ℚ)]]).length * 4)) ++
      asciiBytes "WAVE" ++ asciiBytes "fmt " ++ u32le 16 ++ u16le 3 ++
      u16le ([[(1 : ℚ)], [(2 : ℚ)]]).length ++ u32le 48000 ++
      u32le (48000 * ([[(1 : ℚ)], [(2 : ℚ)]]).length * 4) ++
      u16le (([[(1 : ℚ)], [(2 : ℚ)]]).length * 4) ++
      u16le 32 ++ asciiBytes "data" ++
      u32le (([(1 : ℚ)]).length * (([[(1 : ℚ)], [(2 : ℚ)]]).length * 4)) ++
      ((List.range ([(1 : ℚ)]).length).map (fun t =>
        (([[(1 : ℚ)], [(2 : ℚ)]]).map (fun c =>
          (fun _ => [0, 0, 0, 0]) (c.getD t 0))).flatten)).flatten) :=
  ⟨⟨by simp, by norm_num, by norm_num, by norm_num, by norm_num, by norm_num⟩,
   C1_wav_byte_layout (fun _ => [0, 0, 0, 0]) [(1 : ℚ)] [[(2 : ℚ)]] 48000
     (by simp) (by norm_num) (by norm_num) (by norm_num) (by norm_num)
     (by norm_num)⟩
